import Mathlib

/-!
Verification of the EIP-7702 demonstration client (eip-7702-test).

The repository contains two React variants of the same dApp:
an ethers-based variant (src/App.js, modelled in namespace AppJs below)
and a viem / delegation-toolkit variant (referred to as the viem variant,
modelled in namespace Viem below).  The definitions below are shallow
embeddings of the functions of those files: JS strings become Lean
String, on-chain code bytes become List Nat, React state becomes explicit
state records, and asynchronous external collaborators (wallet, network)
become explicit environment records whose fields give the result of each
external call.  Each run function additionally returns the list of
external interactions it performed, in order.
-/

namespace EIP7702

/-- Hex digit test for address characters (0-9, a-f, A-F). -/
def isHexDigitB (c : Char) : Bool :=
  c.isDigit || ('a' ≤ c && c ≤ 'f') || ('A' ≤ c && c ≤ 'F')

/-- Bool test that the first character list begins with the second. -/
def listStarts : List Char → List Char → Bool
  | _, [] => true
  | [], _ :: _ => false
  | c :: cs, p :: ps => c == p && listStarts cs ps

/-- JS String.prototype.startsWith, on Lean strings. -/
def strStarts (s pat : String) : Bool := listStarts s.data pat.data

/-- Modelled from the external ethers / viem isAddress library check used by
both variants: a 0x-prefixed string of 40 hexadecimal digits.  (Checksum
verification of mixed-case addresses is not modelled; none of the
properties below depends on it.) -/
def isAddress (s : String) : Bool :=
  strStarts s "0x" && s.data.length == 42 && (s.data.drop 2).all isHexDigitB

/-- ethers.ZeroAddress / viem zeroAddress. -/
def zeroAddress : String := "0x0000000000000000000000000000000000000000"

/-- Decimal digit list to Nat. -/
def digitsToNat (l : List Char) : Nat :=
  l.foldl (fun acc c => acc * 10 + (c.toNat - 48)) 0

/-- Split a character list at the first dot, if any. -/
def splitAtDot : List Char → List Char × Option (List Char)
  | [] => ([], none)
  | c :: rest =>
    if c = '.' then ([], some rest)
    else
      let p := splitAtDot rest
      (c :: p.1, p.2)

/-- Modelled from the external ethers / viem parseEther library function used
by both variants: parse a signed decimal ether amount into wei
(18 decimals), failing on malformed input or more than 18 fraction
digits. -/
def parseEtherQ (s : String) : Option Int :=
  let neg : Bool :=
    match s.data with
    | '-' :: _ => true
    | _ => false
  let body : List Char :=
    match s.data with
    | '-' :: rest => rest
    | l => l
  let p := splitAtDot body
  let whole := p.1
  let frac := p.2.getD []
  if whole.all Char.isDigit = false then none
  else if frac.all Char.isDigit = false then none
  else if whole = [] && (p.2 = none || frac = []) then none
  else if 18 < frac.length then none
  else
    let mag : Nat := digitsToNat whole * 10 ^ 18 + digitsToNat frac * 10 ^ (18 - frac.length)
    some (if neg then -(mag : Int) else (mag : Int))

/-- Result of a delegation status resolution (App.js checkDelegationStatus
returns the delegated address string, null, or null-with-warning; the three
outcomes are modelled as this inductive). -/
inductive DelegationStatus where
  | undelegated
  | delegatedTo (a : List Nat)
  | otherCode
deriving DecidableEq, Repr

/-- The fixed 3-byte EIP-7702 delegation designator 0xef0100 tested by
checkDelegationStatus (App.js line 79). -/
def delegationDesignator : List Nat := [0xef, 0x01, 0x00]

/-- Shallow embedding of checkDelegationStatus (App.js lines 68-93) acting on
the code bytes returned by provider.getCode: empty code is undelegated;
code whose first three bytes are the designator is classified as delegated
to everything after the designator (the JS takes the string slice after
"0xef0100"); any other non-empty code is the other-code outcome. -/
def checkDelegationStatus (code : List Nat) : DelegationStatus :=
  if code = [] then .undelegated
  else if code.take 3 = delegationDesignator then .delegatedTo (code.drop 3)
  else .otherCode

/-- Classifier following the specification text of the delegation status
resolver: DelegatedTo only when the code is exactly the designator followed
by a 20-byte address and nothing else. -/
def specDelegationStatus (code : List Nat) : DelegationStatus :=
  if code = [] then .undelegated
  else if code.length = 23 ∧ code.take 3 = delegationDesignator then .delegatedTo (code.drop 3)
  else .otherCode

/-- The delegationStatus React state value set by checkDelegationStatus:
the delegated address when an EIP-7702 designator is found, null
otherwise. -/
def statusOfCode (code : List Nat) : Option (List Nat) :=
  match checkDelegationStatus code with
  | .delegatedTo a => some a
  | _ => none

/-- The authorization message (chainId, address, nonce) that App.js
createAuthorization passes to signer.signTypedData (lines 123-127). -/
structure AuthMessage where
  chainId : Nat
  address : String
  nonce : Nat
deriving DecidableEq, Repr

/-- The three canonical signature components parsed from the wallet's
signature (ethers.Signature.from, App.js line 148). -/
structure Sig where
  yParity : Nat
  r : String
  s : String
deriving DecidableEq, Repr

/-- The Authorization record assembled by App.js createAuthorization
(lines 150-157). -/
structure Authorization where
  chainId : Nat
  address : String
  nonce : Nat
  yParity : Nat
  r : String
  s : String
deriving DecidableEq, Repr

/-- A constant wallet signing capability used to instantiate theorems at
concrete inputs. -/
def constSig : AuthMessage → Sig := fun _ => ⟨0, "", ""⟩

namespace AppJs

/-- Shallow embedding of createAuthorization (App.js lines 116-165): build
the authorization message over the current delegation contract, obtain a
signature over that message from the wallet capability, and assemble the
Authorization.  The second component records the exact message the
signature was requested over. -/
def createAuthorization (chainId : Nat) (delegationContract : String) (nonce : Nat)
    (sign : EIP7702.AuthMessage → EIP7702.Sig) :
    EIP7702.Authorization × EIP7702.AuthMessage :=
  let msg : EIP7702.AuthMessage := ⟨chainId, delegationContract, nonce⟩
  let sg := sign msg
  (⟨chainId, delegationContract, nonce, sg.yParity, sg.r, sg.s⟩, msg)

/-- The authorization built by sendEIP7702Transaction (App.js lines 183-187):
read the current transaction count and call createAuthorization with
count + 1. -/
def buildAuthForSend (chainId : Nat) (delegationContract : String) (currentNonce : Nat)
    (sign : EIP7702.AuthMessage → EIP7702.Sig) : EIP7702.Authorization :=
  (createAuthorization chainId delegationContract (currentNonce + 1) sign).1

/-- The authorization built and submitted by revokeDelegation (App.js lines
319-330): createAuthorization with count + 1, then the address field is
overwritten with the zero address after signing (line 323).  The second
component is the message the signature was actually produced over. -/
def revokeAuthorization (chainId : Nat) (delegationContract : String) (currentNonce : Nat)
    (sign : EIP7702.AuthMessage → EIP7702.Sig) :
    EIP7702.Authorization × EIP7702.AuthMessage :=
  let p := createAuthorization chainId delegationContract (currentNonce + 1) sign
  ({ p.1 with address := EIP7702.zeroAddress }, p.2)

/-- The default delegation contract address held in React state
(App.js line 24). -/
def defaultDelegationContract : String := "0x69e2C6013Bd8adFd9a54D7E0528b740bac4Eb87C"

/-- One entry of the batchTransactions React state in App.js:
the to / value / data strings exactly as typed in the form (the JS field
named to is called toAddress here, to being reserved in Lean). -/
structure BatchTx where
  toAddress : String
  value : String
  data : String
deriving DecidableEq, Repr

/-- addBatchTransaction (App.js lines 96-101): append a blank placeholder
row with empty target, value "0" and data "0x"; no validation is
performed. -/
def addBatchTransaction (l : List BatchTx) : List BatchTx :=
  l ++ [⟨"", "0", "0x"⟩]

/-- JS Array.prototype.filter with the element index supplied to the
predicate, indices counted from the given start. -/
def filterWithIndex {α : Type} (p : Nat → Bool) : List α → Nat → List α
  | [], _ => []
  | x :: xs, k => if p k then x :: filterWithIndex p xs (k + 1) else filterWithIndex p xs (k + 1)

/-- removeBatchTransaction (App.js lines 111-113): keep exactly the entries
whose position differs from the given index. -/
def removeBatchTransaction (l : List BatchTx) (index : Nat) : List BatchTx :=
  filterWithIndex (fun i => i != index) l 0

/-- One prepared call tuple [to, value, data] of the calls array built for
the execute invocation. -/
structure Call where
  toAddress : String
  value : Int
  data : String
deriving DecidableEq, Repr

/-- The per-entry calls mapping of sendEIP7702Transaction (App.js lines
190-194): empty target defaults to the zero address, empty value string
defaults to "0" before parseEther, empty data defaults to "0x"; a value
string parseEther rejects makes the whole preparation throw. -/
def prepareCall (tx : BatchTx) : Option Call :=
  match EIP7702.parseEtherQ (if tx.value = "" then "0" else tx.value) with
  | none => none
  | some v => some ⟨if tx.toAddress = "" then EIP7702.zeroAddress else tx.toAddress, v,
      if tx.data = "" then "0x" else tx.data⟩

/-- The calls array of sendEIP7702Transaction (App.js lines 190-194):
batchTransactions.map over prepareCall, a thrown parseEther aborting the
whole mapping. -/
def prepareCalls : List BatchTx → Option (List Call)
  | [] => some []
  | tx :: rest =>
    match prepareCall tx, prepareCalls rest with
    | some c, some cs => some (c :: cs)
    | _, _ => none

/-- The calls array of sendSponsoredTransaction (App.js lines 259-263),
textually identical to the mapping in sendEIP7702Transaction. -/
def sponsoredCalls : List BatchTx → Option (List Call)
  | [] => some []
  | tx :: rest =>
    match prepareCall tx, sponsoredCalls rest with
    | some c, some cs => some (c :: cs)
    | _, _ => none

/-- The App.js React session state relevant to the delegation flow:
connection flag, busy latch, delegation contract field, assembled batch,
resolved delegation status (the delegated address bytes, or null) and the
displayed balance. -/
structure SessionState where
  isConnected : Bool
  isLoading : Bool
  delegationContract : String
  batchTransactions : List BatchTx
  delegationStatus : Option (List Nat)
  balance : Nat
deriving DecidableEq, Repr

/-- The three on-chain-mutating operations triggered from the Actions
panel (App.js lines 441-468). -/
inductive MutatingOp where
  | sendEIP7702
  | sendSponsored
  | revokeDelegation
deriving DecidableEq, Repr

/-- The disabled-attribute logic of the three action buttons (App.js lines
447, 455, 463), negated: a button can be clicked exactly when this is
true.  Every button is disabled while isLoading holds. -/
def buttonEnabled (s : SessionState) : MutatingOp → Bool
  | .sendEIP7702 => s.isConnected && !s.isLoading && !s.batchTransactions.isEmpty
  | .sendSponsored =>
      s.isConnected && !s.isLoading && s.delegationStatus.isSome && !s.batchTransactions.isEmpty
  | .revokeDelegation => s.isConnected && !s.isLoading && s.delegationStatus.isSome

/-- Outcome of attempting to trigger an action: a disabled button fires no
handler (the request is dropped, not queued), an enabled one starts the
operation, whose first state change is setIsLoading(true). -/
inductive ClickOutcome where
  | rejected
  | started (s : SessionState)
deriving DecidableEq, Repr

/-- Issue one of the three mutating operations against the current session
state: rejected outright when its button is disabled, otherwise the
operation starts and raises the busy latch (App.js lines 179, 244,
316). -/
def clickMutatingOp (s : SessionState) (op : MutatingOp) : ClickOutcome :=
  if buttonEnabled s op then .started { s with isLoading := true } else .rejected

/-- External interactions performed by sendEIP7702Transaction and
revokeDelegation, in order of occurrence. -/
inductive TxEvent where
  | getNonce
  | signTypedData (msg : EIP7702.AuthMessage)
  | sendTransaction
  | waitReceipt
  | getCode
  | getBalance
deriving DecidableEq, Repr

/-- Results the external wallet / network collaborators return to one run
of sendEIP7702Transaction or revokeDelegation. -/
structure TxEnv where
  chainId : Nat
  nonceResult : Except String Nat
  signResult : Except String EIP7702.Sig
  sendResult : Except String String
  waitResult : Except String Nat
  codeAtAccount : List Nat
  balanceResult : Nat

/-- Bool test that an Except is a success. -/
def exOk {ε α : Type} : Except ε α → Bool
  | .ok _ => true
  | .error _ => false

/-- Shallow embedding of sendEIP7702Transaction (App.js lines 168-230):
guard on connection and a non-empty batch, raise the busy latch, read the
nonce, sign the authorization over nonce + 1, map the batch into the calls
array, submit the type-4 transaction and await its receipt; only on
success re-run checkDelegationStatus (a getCode read) and refresh the
balance; any throw is caught, logged and only lowers the latch.  Returns
the final state and the ordered external interactions. -/
def sendEIP7702Run (env : TxEnv) (s : SessionState) : SessionState × List TxEvent :=
  if s.isConnected = false then (s, [])
  else if s.batchTransactions = [] then (s, [])
  else
    match env.nonceResult with
    | .error _ => ({ s with isLoading := false }, [.getNonce])
    | .ok n =>
      let msg : EIP7702.AuthMessage := ⟨env.chainId, s.delegationContract, n + 1⟩
      match env.signResult with
      | .error _ => ({ s with isLoading := false }, [.getNonce, .signTypedData msg])
      | .ok _ =>
        match prepareCalls s.batchTransactions with
        | none => ({ s with isLoading := false }, [.getNonce, .signTypedData msg])
        | some _ =>
          match env.sendResult with
          | .error _ =>
              ({ s with isLoading := false },
               [.getNonce, .signTypedData msg, .sendTransaction])
          | .ok _ =>
            match env.waitResult with
            | .error _ =>
                ({ s with isLoading := false },
                 [.getNonce, .signTypedData msg, .sendTransaction, .waitReceipt])
            | .ok _ =>
                ({ s with delegationStatus := EIP7702.statusOfCode env.codeAtAccount,
                          balance := env.balanceResult, isLoading := false },
                 [.getNonce, .signTypedData msg, .sendTransaction, .waitReceipt,
                  .getCode, .getBalance])

/-- Shallow embedding of revokeDelegation (App.js lines 310-344): guard on
connection, raise the busy latch, read the nonce, sign the authorization
over nonce + 1 (then overwrite its address with zero), submit the type-4
transaction and await the receipt; only on success re-run
checkDelegationStatus; any throw is caught, logged and only lowers the
latch. -/
def revokeDelegationRun (env : TxEnv) (s : SessionState) : SessionState × List TxEvent :=
  if s.isConnected = false then (s, [])
  else
    match env.nonceResult with
    | .error _ => ({ s with isLoading := false }, [.getNonce])
    | .ok n =>
      let msg : EIP7702.AuthMessage := ⟨env.chainId, s.delegationContract, n + 1⟩
      match env.signResult with
      | .error _ => ({ s with isLoading := false }, [.getNonce, .signTypedData msg])
      | .ok _ =>
        match env.sendResult with
        | .error _ =>
            ({ s with isLoading := false },
             [.getNonce, .signTypedData msg, .sendTransaction])
        | .ok _ =>
          match env.waitResult with
          | .error _ =>
              ({ s with isLoading := false },
               [.getNonce, .signTypedData msg, .sendTransaction, .waitReceipt])
          | .ok _ =>
              ({ s with delegationStatus := EIP7702.statusOfCode env.codeAtAccount,
                        isLoading := false },
               [.getNonce, .signTypedData msg, .sendTransaction, .waitReceipt, .getCode])

/-- The events of App.js createAuthorization itself (lines 116-165): a
network read for the chain id, then the typed-data signing request shown
by the wallet. -/
inductive AuthEvent where
  | getNetwork
  | signTypedDataRequest (msg : EIP7702.AuthMessage)
deriving DecidableEq, Repr

/-- Failure taxonomy of the authorization builder in the specification. -/
inductive AuthFailure where
  | signingRejected
  | invalidDelegateAddress
deriving DecidableEq, Repr

/-- Run of App.js createAuthorization (lines 116-165) with its external
interactions: the function performs no validation of the delegation
contract address; it reads the chain id and immediately requests the
typed-data signature, succeeding or propagating the wallet's rejection. -/
def createAuthorizationRun (chainId : Nat) (delegationContract : String) (nonce : Nat)
    (signResult : Except Unit EIP7702.Sig) :
    Except AuthFailure EIP7702.Authorization × List AuthEvent :=
  let msg : EIP7702.AuthMessage := ⟨chainId, delegationContract, nonce⟩
  match signResult with
  | .error _ => (.error .signingRejected, [.getNetwork, .signTypedDataRequest msg])
  | .ok sg =>
      (.ok (createAuthorization chainId delegationContract nonce (fun _ => sg)).1,
       [.getNetwork, .signTypedDataRequest msg])

end AppJs

namespace Viem

/-- One entry of the batchTransactions React state in the viem variant:
a session id (Date.now()), address, calldata and value. -/
structure BatchTx where
  id : Nat
  address : String
  calldata : String
  value : String
deriving DecidableEq, Repr

/-- The React state of the viem variant's batch call assembler: the list
plus the three form fields and the status banner message. -/
structure AsmState where
  batchTransactions : List BatchTx
  newTxAddress : String
  newTxCalldata : String
  newTxValue : String
  statusMsg : String
deriving DecidableEq, Repr

/-- Initial assembler state of the viem variant (useState defaults:
empty list, empty address and calldata fields, value field "0"). -/
def initialAsmState : AsmState :=
  ⟨[], "", "", "0", ""⟩

/-- addBatchTransaction of the viem variant (lines 110-147): reject an
empty address or calldata field, an address failing isAddress, calldata
not starting with 0x, or a value parseEther rejects; otherwise append the
new entry (value defaulting to "0") with the supplied timestamp id and
clear the form fields. -/
def addBatchTransaction (s : AsmState) (now : Nat) : AsmState :=
  if s.newTxAddress = "" ∨ s.newTxCalldata = "" then
    { s with statusMsg := "Please provide both address and calldata" }
  else if EIP7702.isAddress s.newTxAddress = false then
    { s with statusMsg := "Invalid address format" }
  else if EIP7702.strStarts s.newTxCalldata "0x" = false then
    { s with statusMsg := "Calldata must start with 0x" }
  else if EIP7702.parseEtherQ (if s.newTxValue = "" then "0" else s.newTxValue) = none then
    { s with statusMsg := "Invalid value format" }
  else
    { batchTransactions := s.batchTransactions ++
        [⟨now, s.newTxAddress, s.newTxCalldata, if s.newTxValue = "" then "0" else s.newTxValue⟩],
      newTxAddress := "", newTxCalldata := "", newTxValue := "0",
      statusMsg := "Transaction added to batch" }

/-- removeBatchTransaction of the viem variant (lines 150-153): keep the
entries whose id differs. -/
def removeBatchTransaction (s : AsmState) (id : Nat) : AsmState :=
  { s with batchTransactions := s.batchTransactions.filter (fun tx => tx.id != id),
           statusMsg := "Transaction removed from batch" }

/-- One user interaction with the assembler: typing into one of the three
form fields, clicking Add (with the Date.now() value observed then), or
clicking Remove on an id. -/
inductive AsmOp where
  | typeAddress (a : String)
  | typeCalldata (c : String)
  | typeValue (v : String)
  | clickAdd (now : Nat)
  | clickRemove (id : Nat)

/-- Apply one assembler interaction to the state. -/
def applyAsmOp (s : AsmState) : AsmOp → AsmState
  | .typeAddress a => { s with newTxAddress := a }
  | .typeCalldata c => { s with newTxCalldata := c }
  | .typeValue v => { s with newTxValue := v }
  | .clickAdd now => addBatchTransaction s now
  | .clickRemove id => removeBatchTransaction s id

/-- Run a session of assembler interactions from the initial state. -/
def runAsm (ops : List AsmOp) : AsmState :=
  ops.foldl applyAsmOp initialAsmState

/-- The viem variant's React session state as touched by the
accountsChanged subscription (lines 87-102): the nullable account,
provider / signer / client handles (modelled by presence booleans), the
nullable smart-account instance (tagged with the account it was created
for), the delegation flag, and state the handler leaves alone. -/
structure ViemSession where
  account : Option String
  provider : Bool
  signer : Bool
  publicClient : Bool
  walletClient : Bool
  bundlerClient : Bool
  smartAccount : Option String
  isDelegated : Bool
  delegationContract : String
  statusType : String
  statusMessage : String
deriving DecidableEq, Repr

/-- The accountsChanged event handler (lines 87-102): an empty accounts
list nulls the account, all client handles and the smart account and
clears the delegation flag; a non-empty list only rebinds the account and
updates the status banner. -/
def accountsChanged (s : ViemSession) (accounts : List String) : ViemSession :=
  match accounts with
  | [] =>
      { s with account := none, provider := false, signer := false,
               publicClient := false, walletClient := false, bundlerClient := false,
               smartAccount := none, isDelegated := false,
               statusType := "warning", statusMessage := "Wallet disconnected" }
  | a :: _ =>
      { s with account := some a,
               statusType := "success", statusMessage := "Connected to " ++ a }

/-- External interactions performed by the viem variant's createDelegation
(lines 156-207), in order. -/
inductive DelEvent where
  | signAuthorizationRequest
  | sendTransactionRequest
  | waitReceiptRequest
  | toSmartAccountRequest
deriving DecidableEq, Repr

/-- Results the wallet / network / toolkit collaborators return to one run
of createDelegation. -/
structure DelEnv where
  signResult : Except String Unit
  sendResult : Except String String
  waitResult : Except String Unit
  smartAccountResult : Except String Unit

/-- Outcome of one createDelegation run: the error banner if any, the
resulting isDelegated flag, and the ordered external interactions. -/
structure DelOutcome where
  errorMsg : Option String
  isDelegated : Bool
  events : List DelEvent
deriving DecidableEq, Repr

/-- Shallow embedding of createDelegation (lines 156-207): guard on a
connected wallet client and a non-empty delegation contract field, then
validate the contract address with isAddress BEFORE any wallet
interaction; only then sign the EIP-7702 authorization, send the type-4
transaction, await the receipt and build the smart-account instance,
setting the delegation flag on success. -/
def createDelegationRun (walletClientConnected : Bool) (delegationContract : String)
    (env : DelEnv) : DelOutcome :=
  if walletClientConnected = false ∨ delegationContract = "" then
    ⟨some "Please connect wallet and set delegation contract", false, []⟩
  else if EIP7702.isAddress delegationContract = false then
    ⟨some "Invalid delegation contract address", false, []⟩
  else
    match env.signResult with
    | .error e => ⟨some e, false, [.signAuthorizationRequest]⟩
    | .ok _ =>
      match env.sendResult with
      | .error e => ⟨some e, false, [.signAuthorizationRequest, .sendTransactionRequest]⟩
      | .ok _ =>
        match env.waitResult with
        | .error e =>
            ⟨some e, false,
             [.signAuthorizationRequest, .sendTransactionRequest, .waitReceiptRequest]⟩
        | .ok _ =>
          match env.smartAccountResult with
          | .error e =>
              ⟨some e, false,
               [.signAuthorizationRequest, .sendTransactionRequest, .waitReceiptRequest,
                .toSmartAccountRequest]⟩
          | .ok _ =>
              ⟨none, true,
               [.signAuthorizationRequest, .sendTransactionRequest, .waitReceiptRequest,
                .toSmartAccountRequest]⟩

end Viem

/-- A sample environment in which the submitted transaction reverts while
waiting for its receipt. -/
def exampleEnvRevert : AppJs.TxEnv :=
  ⟨1, .ok 5, .ok ⟨0, "", ""⟩, .ok "0xhash", .error "execution reverted", [], 0⟩

/-- A sample environment in which the node rejects the submission itself
(a stale-nonce style send-time rejection). -/
def exampleEnvSendFail : AppJs.TxEnv :=
  ⟨1, .ok 5, .ok ⟨0, "", ""⟩, .error "nonce too low", .error "never reached", [], 0⟩

/-- A sample environment in which every external interaction succeeds and
the final code read returns a 23-byte delegation designator. -/
def exampleEnvOk : AppJs.TxEnv :=
  ⟨1, .ok 5, .ok ⟨0, "", ""⟩, .ok "0xhash", .ok 12,
   delegationDesignator ++ [1, 2, 3, 4, 5, 6, 7, 8, 9, 10, 11, 12, 13, 14, 15, 16, 17, 18, 19, 20],
   7⟩

/-- A sample connected session with one placeholder batch row and an
existing resolved delegation. -/
def exampleSession : AppJs.SessionState :=
  ⟨true, false, AppJs.defaultDelegationContract, [⟨"", "0", "0x"⟩], some [1, 2], 9⟩

/-- Claim C1 — counterexample: the ethers variant's checkDelegationStatus
classifies the 4-byte code designator-plus-one-byte as DelegatedTo even
though no 20-byte address follows the designator, where the claimed
classification demands OtherCode. -/
theorem C1_counterexample :
    checkDelegationStatus [0xef, 0x01, 0x00, 0xab] = .delegatedTo [0xab] ∧
    specDelegationStatus [0xef, 0x01, 0x00, 0xab] = .otherCode := by
  decide

/-- Claim C1 (amended): checkDelegationStatus returns Undelegated exactly on
empty code, DelegatedTo the bytes after the designator whenever non-empty
code begins with the 3-byte designator 0xef0100 regardless of how many
bytes follow (in particular designator plus a 20-byte address A yields
DelegatedTo A), and OtherCode on any other non-empty code; the
classification is a pure function of the code bytes, and it agrees with
the claimed classification on every code for which a designator start
implies the exact 23-byte layout. -/
theorem C1_checkDelegationStatus_amended (code : List Nat) :
    (code = [] → checkDelegationStatus code = .undelegated) ∧
    (code ≠ [] → code.take 3 = delegationDesignator →
      checkDelegationStatus code = .delegatedTo (code.drop 3)) ∧
    (code ≠ [] → code.take 3 ≠ delegationDesignator →
      checkDelegationStatus code = .otherCode) ∧
    (∀ A : List Nat, checkDelegationStatus (delegationDesignator ++ A) = .delegatedTo A) ∧
    ((code.take 3 = delegationDesignator → code.length = 23) →
      checkDelegationStatus code = specDelegationStatus code) := by
  refine ⟨?_, ?_, ?_, ?_, ?_⟩
  · intro h; simp [checkDelegationStatus, h]
  · intro h1 h2; simp [checkDelegationStatus, h1, h2]
  · intro h1 h2; simp [checkDelegationStatus, h1, h2]
  · intro A; simp [checkDelegationStatus, delegationDesignator]
  · intro h
    by_cases h0 : code = []
    · simp [checkDelegationStatus, specDelegationStatus, h0]
    · by_cases h3 : code.take 3 = delegationDesignator
      · simp [checkDelegationStatus, specDelegationStatus, h0, h3, h h3]
      · simp [checkDelegationStatus, specDelegationStatus, h0, h3]

/-- Claim C1 — witness instantiating the amended theorem. -/
theorem C1_witness :
    checkDelegationStatus
        (delegationDesignator ++
         [1, 2, 3, 4, 5, 6, 7, 8, 9, 10, 11, 12, 13, 14, 15, 16, 17, 18, 19, 20])
      = .delegatedTo [1, 2, 3, 4, 5, 6, 7, 8, 9, 10, 11, 12, 13, 14, 15, 16, 17, 18, 19, 20] ∧
    checkDelegationStatus [] = .undelegated :=
  ⟨(C1_checkDelegationStatus_amended []).2.2.2.1
      [1, 2, 3, 4, 5, 6, 7, 8, 9, 10, 11, 12, 13, 14, 15, 16, 17, 18, 19, 20],
   (C1_checkDelegationStatus_amended []).1 rfl⟩

/-- Claim C2 (confirmed): the authorization built by sendEIP7702Transaction
and the one built by revokeDelegation both carry nonce equal to the
transaction count read at build time plus one; in particular count 5
yields nonce 6. -/
theorem C2_authorization_nonce (chainId : Nat) (dc : String) (n : Nat)
    (sign : AuthMessage → Sig) :
    (AppJs.buildAuthForSend chainId dc n sign).nonce = n + 1 ∧
    (AppJs.revokeAuthorization chainId dc n sign).1.nonce = n + 1 ∧
    (AppJs.buildAuthForSend chainId dc 5 sign).nonce = 6 :=
  ⟨rfl, rfl, rfl⟩

/-- Claim C3 — the code evaluated at the failing input: with the default
delegation contract in state, revokeDelegation submits an authorization
whose address field is the zero sentinel, but the message the signature
was produced over carries the delegation contract address, so the
submitted tuple is not the signed tuple. -/
theorem C3_revoke_mutates_after_signing :
    (AppJs.revokeAuthorization 11155111 AppJs.defaultDelegationContract 5 constSig).1.address
      = zeroAddress ∧
    (AppJs.revokeAuthorization 11155111 AppJs.defaultDelegationContract 5 constSig).2.address
      = AppJs.defaultDelegationContract ∧
    (AppJs.revokeAuthorization 11155111 AppJs.defaultDelegationContract 5 constSig).1.address
      ≠ (AppJs.revokeAuthorization 11155111 AppJs.defaultDelegationContract 5 constSig).2.address := by
  refine ⟨rfl, rfl, ?_⟩
  decide

/-- Claim C4 (confirmed): while the busy latch of the Actions panel is
raised, issuing any of the three on-chain-mutating operations is rejected
outright (the state machine offers no queue), and once an operation has
started, any second operation is rejected until it completes. -/
theorem C4_busy_latch (s : AppJs.SessionState) (op : AppJs.MutatingOp) :
    (s.isLoading = true → AppJs.clickMutatingOp s op = .rejected) ∧
    (∀ s2 op2, AppJs.clickMutatingOp s op = .started s2 →
      AppJs.clickMutatingOp s2 op2 = .rejected) := by
  constructor
  · intro h
    cases op <;> simp [AppJs.clickMutatingOp, AppJs.buttonEnabled, h]
  · intro s2 op2 h
    have h2 : s2.isLoading = true := by
      unfold AppJs.clickMutatingOp at h
      split at h
      · injection h with hh
        subst hh
        rfl
      · simp at h
    cases op2 <;> simp [AppJs.clickMutatingOp, AppJs.buttonEnabled, h2]

/-- Claim C4 — witness: a busy session rejects a new submission. -/
theorem C4_witness :
    AppJs.clickMutatingOp ⟨true, true, "", [⟨"", "0", "0x"⟩], none, 0⟩
      AppJs.MutatingOp.sendEIP7702 = .rejected :=
  (C4_busy_latch ⟨true, true, "", [⟨"", "0", "0x"⟩], none, 0⟩ AppJs.MutatingOp.sendEIP7702).1 rfl

/-- Claim C5 — counterexample, in both failure modes: a submission whose
receipt wait throws (a reverted transaction) and a submission the node
rejects at send time (a stale nonce) are each followed by no code read at
all, so the delegation status is not re-resolved after these failed
state-changing submissions; it is simply left as it was. -/
theorem C5_counterexample :
    AppJs.TxEvent.sendTransaction ∈ (AppJs.sendEIP7702Run exampleEnvRevert exampleSession).2 ∧
    AppJs.TxEvent.getCode ∉ (AppJs.sendEIP7702Run exampleEnvRevert exampleSession).2 ∧
    (AppJs.sendEIP7702Run exampleEnvRevert exampleSession).1.delegationStatus
      = exampleSession.delegationStatus ∧
    AppJs.TxEvent.sendTransaction
      ∈ (AppJs.sendEIP7702Run exampleEnvSendFail exampleSession).2 ∧
    AppJs.TxEvent.getCode ∉ (AppJs.sendEIP7702Run exampleEnvSendFail exampleSession).2 ∧
    (AppJs.sendEIP7702Run exampleEnvSendFail exampleSession).1.delegationStatus
      = exampleSession.delegationStatus := by
  decide

/-- Claim C5 (amended): after a SUCCESSFUL submission, both
sendEIP7702Transaction and revokeDelegation re-resolve the delegation
status from a fresh code read (never from the authorization or the
submission outcome); after a failed submission — whether the send itself
is rejected by the node (the StaleNonce mode) or the transaction reverts
while awaiting the receipt (the SubmissionReverted mode) — neither
performs a code read and the stored status is left unchanged. -/
theorem C5_status_refetch_amended (env : AppJs.TxEnv) (s : AppJs.SessionState)
    (hc : s.isConnected = true) (hb : s.batchTransactions ≠ []) :
    (AppJs.exOk env.nonceResult = true → AppJs.exOk env.signResult = true →
     AppJs.prepareCalls s.batchTransactions ≠ none →
      ((AppJs.exOk env.sendResult = false →
          (AppJs.sendEIP7702Run env s).1.delegationStatus = s.delegationStatus ∧
          AppJs.TxEvent.getCode ∉ (AppJs.sendEIP7702Run env s).2) ∧
       (AppJs.exOk env.sendResult = true →
        ((AppJs.exOk env.waitResult = true →
            (AppJs.sendEIP7702Run env s).1.delegationStatus
              = statusOfCode env.codeAtAccount ∧
            AppJs.TxEvent.getCode ∈ (AppJs.sendEIP7702Run env s).2) ∧
         (AppJs.exOk env.waitResult = false →
            (AppJs.sendEIP7702Run env s).1.delegationStatus = s.delegationStatus ∧
            AppJs.TxEvent.getCode ∉ (AppJs.sendEIP7702Run env s).2))))) ∧
    (AppJs.exOk env.nonceResult = true → AppJs.exOk env.signResult = true →
      ((AppJs.exOk env.sendResult = false →
          (AppJs.revokeDelegationRun env s).1.delegationStatus = s.delegationStatus ∧
          AppJs.TxEvent.getCode ∉ (AppJs.revokeDelegationRun env s).2) ∧
       (AppJs.exOk env.sendResult = true →
        ((AppJs.exOk env.waitResult = true →
            (AppJs.revokeDelegationRun env s).1.delegationStatus
              = statusOfCode env.codeAtAccount ∧
            AppJs.TxEvent.getCode ∈ (AppJs.revokeDelegationRun env s).2) ∧
         (AppJs.exOk env.waitResult = false →
            (AppJs.revokeDelegationRun env s).1.delegationStatus = s.delegationStatus ∧
            AppJs.TxEvent.getCode ∉ (AppJs.revokeDelegationRun env s).2))))) := by
  obtain ⟨cid, nr, sr, sendr, wr, code, bal⟩ := env
  constructor
  · intro h1 h2 h3
    cases nr with
    | error e => simp [AppJs.exOk] at h1
    | ok n =>
      cases sr with
      | error e => simp [AppJs.exOk] at h2
      | ok sg =>
        rcases hp : AppJs.prepareCalls s.batchTransactions with _ | pc
        · exact absurd hp h3
        · constructor
          · intro h4
            cases sendr with
            | ok tx => simp [AppJs.exOk] at h4
            | error e =>
              refine ⟨?_, ?_⟩ <;> simp [AppJs.sendEIP7702Run, hc, hb, hp]
          · intro h4
            cases sendr with
            | error e => simp [AppJs.exOk] at h4
            | ok tx =>
              constructor
              · intro h5
                cases wr with
                | error e => simp [AppJs.exOk] at h5
                | ok rc =>
                  refine ⟨?_, ?_⟩ <;> simp [AppJs.sendEIP7702Run, hc, hb, hp]
              · intro h5
                cases wr with
                | ok rc => simp [AppJs.exOk] at h5
                | error e =>
                  refine ⟨?_, ?_⟩ <;> simp [AppJs.sendEIP7702Run, hc, hb, hp]
  · intro h1 h1b
    cases nr with
    | error e => simp [AppJs.exOk] at h1
    | ok n =>
      cases sr with
      | error e => simp [AppJs.exOk] at h1b
      | ok sg =>
        constructor
        · intro h4
          cases sendr with
          | ok tx => simp [AppJs.exOk] at h4
          | error e =>
            refine ⟨?_, ?_⟩ <;> simp [AppJs.revokeDelegationRun, hc]
        · intro h4
          cases sendr with
          | error e => simp [AppJs.exOk] at h4
          | ok tx =>
            constructor
            · intro h5
              cases wr with
              | error e => simp [AppJs.exOk] at h5
              | ok rc =>
                refine ⟨?_, ?_⟩ <;> simp [AppJs.revokeDelegationRun, hc]
            · intro h5
              cases wr with
              | ok rc => simp [AppJs.exOk] at h5
              | error e =>
                refine ⟨?_, ?_⟩ <;> simp [AppJs.revokeDelegationRun, hc]

/-- Claim C5 — witness: in a fully successful run the final status is the
classification of the freshly read code. -/
theorem C5_witness :
    (AppJs.sendEIP7702Run exampleEnvOk exampleSession).1.delegationStatus
      = statusOfCode exampleEnvOk.codeAtAccount :=
  ((((C5_status_refetch_amended exampleEnvOk exampleSession rfl (by decide)).1
      rfl rfl (by decide)).2 rfl).1 rfl).1

/-- Claim C6 — counterexample: the ethers variant's addBatchTransaction
makes a placeholder row with the empty string as target visible in the
assembler list, and the empty string is not a well-formed address. -/
theorem C6_counterexample :
    (⟨"", "0", "0x"⟩ : AppJs.BatchTx) ∈ AppJs.addBatchTransaction [] ∧
    isAddress "" = false := by
  decide

theorem viemAdd_inv (s : Viem.AsmState) (now : Nat)
    (h : ∀ tx ∈ s.batchTransactions,
      isAddress tx.address = true ∧ strStarts tx.calldata "0x" = true) :
    ∀ tx ∈ (Viem.addBatchTransaction s now).batchTransactions,
      isAddress tx.address = true ∧ strStarts tx.calldata "0x" = true := by
  intro tx htx
  unfold Viem.addBatchTransaction at htx
  split at htx
  · exact h tx htx
  · split at htx
    · exact h tx htx
    · next h2 =>
        split at htx
        · exact h tx htx
        · next h3 =>
            split at htx <;> split at htx
            · exact h tx htx
            · rcases List.mem_append.mp htx with hl | hr
              · exact h tx hl
              · have he := List.mem_singleton.mp hr
                subst he
                refine ⟨?_, ?_⟩
                · show isAddress s.newTxAddress = true
                  cases hbb : isAddress s.newTxAddress with
                  | true => rfl
                  | false => exact absurd hbb h2
                · show strStarts s.newTxCalldata "0x" = true
                  cases hbb : strStarts s.newTxCalldata "0x" with
                  | true => rfl
                  | false => exact absurd hbb h3
            · exact h tx htx
            · rcases List.mem_append.mp htx with hl | hr
              · exact h tx hl
              · have he := List.mem_singleton.mp hr
                subst he
                refine ⟨?_, ?_⟩
                · show isAddress s.newTxAddress = true
                  cases hbb : isAddress s.newTxAddress with
                  | true => rfl
                  | false => exact absurd hbb h2
                · show strStarts s.newTxCalldata "0x" = true
                  cases hbb : strStarts s.newTxCalldata "0x" with
                  | true => rfl
                  | false => exact absurd hbb h3

theorem viemRun_inv : ∀ (ops : List Viem.AsmOp) (s : Viem.AsmState),
    (∀ tx ∈ s.batchTransactions,
      isAddress tx.address = true ∧ strStarts tx.calldata "0x" = true) →
    ∀ tx ∈ (ops.foldl Viem.applyAsmOp s).batchTransactions,
      isAddress tx.address = true ∧ strStarts tx.calldata "0x" = true := by
  intro ops
  induction ops with
  | nil => intro s h; simpa using h
  | cons op rest ih =>
    intro s h
    simp only [List.foldl_cons]
    apply ih
    cases op with
    | typeAddress a => exact fun tx htx => h tx htx
    | typeCalldata c => exact fun tx htx => h tx htx
    | typeValue v => exact fun tx htx => h tx htx
    | clickAdd now => exact viemAdd_inv s now h
    | clickRemove id => exact fun tx htx => h tx (List.mem_of_mem_filter htx)

/-- Claim C6 (amended): in the viem variant every call visible in the
assembler list after any session of form edits, adds and removes has a
well-formed (isAddress-accepted) target and 0x-prefixed calldata, because
add validates before appending; in the ethers variant addBatchTransaction
appends an unvalidated placeholder whose empty-string target is not a
well-formed address. -/
theorem C6_assembler_wellformed_amended (ops : List Viem.AsmOp) :
    ∀ tx ∈ (Viem.runAsm ops).batchTransactions,
      isAddress tx.address = true ∧ strStarts tx.calldata "0x" = true := by
  intro tx htx
  exact viemRun_inv ops Viem.initialAsmState (by intro t ht; cases ht) tx htx

/-- Claim C6 — witness: a validated add makes exactly the well-formed call
visible. -/
theorem C6_witness :
    isAddress (⟨7, zeroAddress, "0x", "0"⟩ : Viem.BatchTx).address = true ∧
    strStarts (⟨7, zeroAddress, "0x", "0"⟩ : Viem.BatchTx).calldata "0x" = true :=
  C6_assembler_wellformed_amended
    [.typeAddress zeroAddress, .typeCalldata "0x", .clickAdd 7]
    ⟨7, zeroAddress, "0x", "0"⟩ (by decide)

/-- Claim C7 — counterexample: the ethers variant's createAuthorization
performs no address validation: for a malformed delegate address it still
issues the typed-data signing request to the wallet and never produces an
InvalidDelegateAddress outcome. -/
theorem C7_counterexample :
    isAddress "0x1234" = false ∧
    (AppJs.createAuthorizationRun 1 "0x1234" 6 (.ok ⟨0, "", ""⟩)).2
      = [.getNetwork, .signTypedDataRequest ⟨1, "0x1234", 6⟩] ∧
    (AppJs.createAuthorizationRun 1 "0x1234" 6 (.ok ⟨0, "", ""⟩)).1
      ≠ .error AppJs.AuthFailure.invalidDelegateAddress := by
  refine ⟨by decide, rfl, ?_⟩
  intro h
  exact Except.noConfusion h

/-- Claim C7 (amended): in the viem variant's createDelegation a delegate
address failing address-format validation produces the validation error
before any wallet interaction is requested (no signing prompt event is
emitted); the ethers variant's createAuthorization performs no such
pre-signing validation. -/
theorem C7_validation_before_wallet_amended (dc : String) (env : Viem.DelEnv)
    (h1 : dc ≠ "") (h2 : isAddress dc = false) :
    Viem.createDelegationRun true dc env
      = ⟨some "Invalid delegation contract address", false, []⟩ := by
  simp [Viem.createDelegationRun, h1, h2]

/-- Claim C7 — witness: a malformed contract address is rejected with no
wallet interaction. -/
theorem C7_witness :
    Viem.createDelegationRun true "0xzz" ⟨.ok (), .ok "0xhash", .ok (), .ok ()⟩
      = ⟨some "Invalid delegation contract address", false, []⟩ :=
  C7_validation_before_wallet_amended "0xzz" ⟨.ok (), .ok "0xhash", .ok (), .ok ()⟩
    (by decide) (by decide)

/-- Claim C8 — counterexample: an account-change event that switches to a
different non-empty account list rebinds the account but retains the
smart-account instance and delegation flag cached for the previous
account, so the session state is not torn down on every account-change
event. -/
theorem C8_counterexample :
    (Viem.accountsChanged
        ⟨some "0xA", true, true, true, true, true, some "0xA", true, "", "", ""⟩
        ["0xB"]).account = some "0xB" ∧
    (Viem.accountsChanged
        ⟨some "0xA", true, true, true, true, true, some "0xA", true, "", "", ""⟩
        ["0xB"]).smartAccount = some "0xA" ∧
    (Viem.accountsChanged
        ⟨some "0xA", true, true, true, true, true, some "0xA", true, "", "", ""⟩
        ["0xB"]).isDelegated = true := by
  decide

/-- Claim C8 (amended): on an account-change event delivering an EMPTY
account list the handler resets the bound account, all provider / signer /
client handles, the smart-account instance and the delegation flag; on a
non-empty list it only rebinds the account to the first entry, retaining
the previous smart-account instance and delegation flag. -/
theorem C8_accountsChanged_amended (s : Viem.ViemSession) (accounts : List String) :
    (accounts = [] →
      (Viem.accountsChanged s accounts).account = none ∧
      (Viem.accountsChanged s accounts).provider = false ∧
      (Viem.accountsChanged s accounts).signer = false ∧
      (Viem.accountsChanged s accounts).publicClient = false ∧
      (Viem.accountsChanged s accounts).walletClient = false ∧
      (Viem.accountsChanged s accounts).bundlerClient = false ∧
      (Viem.accountsChanged s accounts).smartAccount = none ∧
      (Viem.accountsChanged s accounts).isDelegated = false) ∧
    (∀ a rest, accounts = a :: rest →
      (Viem.accountsChanged s accounts).account = some a ∧
      (Viem.accountsChanged s accounts).smartAccount = s.smartAccount ∧
      (Viem.accountsChanged s accounts).isDelegated = s.isDelegated) := by
  constructor
  · rintro rfl
    exact ⟨rfl, rfl, rfl, rfl, rfl, rfl, rfl, rfl⟩
  · rintro a rest rfl
    exact ⟨rfl, rfl, rfl⟩

/-- Claim C8 — witness: the empty-list event clears the cached smart
account. -/
theorem C8_witness :
    (Viem.accountsChanged
        ⟨some "0xA", true, true, true, true, true, some "0xA", true, "", "", ""⟩
        []).smartAccount = none :=
  ((C8_accountsChanged_amended
      ⟨some "0xA", true, true, true, true, true, some "0xA", true, "", "", ""⟩
      []).1 rfl).2.2.2.2.2.2.1

theorem fwiKeepAll {α : Type} (i : Nat) : ∀ (l : List α) (k : Nat),
    (i < k ∨ k + l.length ≤ i) →
    AppJs.filterWithIndex (fun j => j != i) l k = l := by
  intro l
  induction l with
  | nil => intro k h; rfl
  | cons x xs ih =>
    intro k h
    have hk : k ≠ i := by
      rcases h with h | h
      · omega
      · simp only [List.length_cons] at h; omega
    have h2 : i < k + 1 ∨ (k + 1) + xs.length ≤ i := by
      rcases h with h | h
      · left; omega
      · right; simp only [List.length_cons] at h; omega
    simp [AppJs.filterWithIndex, hk, ih (k + 1) h2]

theorem fwiLen {α : Type} (i : Nat) : ∀ (l : List α) (k : Nat), k ≤ i → i < k + l.length →
    (AppJs.filterWithIndex (fun j => j != i) l k).length + 1 = l.length := by
  intro l
  induction l with
  | nil => intro k h1 h2; simp at h2; omega
  | cons x xs ih =>
    intro k h1 h2
    by_cases hk : k = i
    · subst hk
      simp only [AppJs.filterWithIndex, bne_self_eq_false, Bool.false_eq_true, if_false,
        List.length_cons]
      rw [fwiKeepAll k xs (k + 1) (Or.inl (Nat.lt_succ_self k))]
    · have hki : k < i := Nat.lt_of_le_of_ne h1 hk
      have hbne : (k != i) = true := by simp [hk]
      simp only [AppJs.filterWithIndex, List.length_cons]
      rw [if_pos hbne]
      simp only [List.length_cons]
      have := ih (k + 1) (by omega) (by simp only [List.length_cons] at h2; omega)
      omega

theorem fwiSub {α : Type} (i : Nat) : ∀ (l : List α) (k : Nat),
    List.Sublist (AppJs.filterWithIndex (fun j => j != i) l k) l := by
  intro l
  induction l with
  | nil => intro k; exact List.Sublist.refl []
  | cons x xs ih =>
    intro k
    by_cases hk : (k != i) = true
    · simp only [AppJs.filterWithIndex, hk, if_true]
      exact List.Sublist.cons₂ x (ih (k + 1))
    · simp only [AppJs.filterWithIndex, hk, if_false]
      exact List.Sublist.cons x (ih (k + 1))

theorem viemRemove_notmem (l : List Viem.BatchTx) (i : Nat)
    (h : i ∉ l.map Viem.BatchTx.id) :
    l.filter (fun tx => tx.id != i) = l := by
  apply List.filter_eq_self.mpr
  intro tx htx
  have hne : tx.id ≠ i := by
    intro he
    exact h (he ▸ List.mem_map_of_mem Viem.BatchTx.id htx)
  simp [hne]

theorem viemRemove_len : ∀ (l : List Viem.BatchTx) (i : Nat),
    (l.map Viem.BatchTx.id).Nodup → i ∈ l.map Viem.BatchTx.id →
    (l.filter (fun tx => tx.id != i)).length + 1 = l.length := by
  intro l
  induction l with
  | nil => intro i h1 h2; simp at h2
  | cons x xs ih =>
    intro i h1 h2
    simp only [List.map_cons, List.nodup_cons] at h1
    obtain ⟨hx, hnd⟩ := h1
    simp only [List.map_cons, List.mem_cons] at h2
    rcases h2 with h2 | h2
    · subst h2
      simp only [List.filter_cons, bne_self_eq_false, Bool.false_eq_true, if_false]
      rw [viemRemove_notmem xs x.id hx]
      simp
    · have hxi : x.id ≠ i := fun he => hx (he ▸ h2)
      have hbne : (x.id != i) = true := by simp [hxi]
      simp only [List.filter_cons, hbne, if_true, List.length_cons]
      have := ih i hnd h2
      omega

/-- Claim C9 (confirmed): in both variants, removing an absent id or index
leaves the assembler list unchanged; removing a present one (ids assumed
session-unique, as the data model requires) shrinks the list by exactly
one; and removal is always a sublist operation, preserving the relative
order of the remaining entries. -/
theorem C9_remove_semantics (s : Viem.AsmState) (i : Nat)
    (l : List AppJs.BatchTx) (idx : Nat) :
    (i ∉ s.batchTransactions.map Viem.BatchTx.id →
      (Viem.removeBatchTransaction s i).batchTransactions = s.batchTransactions) ∧
    ((s.batchTransactions.map Viem.BatchTx.id).Nodup →
      i ∈ s.batchTransactions.map Viem.BatchTx.id →
      (Viem.removeBatchTransaction s i).batchTransactions.length + 1
        = s.batchTransactions.length) ∧
    List.Sublist (Viem.removeBatchTransaction s i).batchTransactions s.batchTransactions ∧
    (l.length ≤ idx → AppJs.removeBatchTransaction l idx = l) ∧
    (idx < l.length → (AppJs.removeBatchTransaction l idx).length + 1 = l.length) ∧
    List.Sublist (AppJs.removeBatchTransaction l idx) l := by
  refine ⟨?_, ?_, ?_, ?_, ?_, ?_⟩
  · intro h
    exact viemRemove_notmem s.batchTransactions i h
  · intro h1 h2
    exact viemRemove_len s.batchTransactions i h1 h2
  · exact List.filter_sublist s.batchTransactions
  · intro h
    exact fwiKeepAll idx l 0 (Or.inr (by omega))
  · intro h
    exact fwiLen idx l 0 (Nat.zero_le idx) (by omega)
  · exact fwiSub idx l 0

/-- Claim C9 — witness: removing the present id 1 from a two-entry list
shrinks it to one entry; removing index 5 from a one-entry list is a
no-op. -/
theorem C9_witness :
    (Viem.removeBatchTransaction
        ⟨[⟨1, "0xa", "0x", "0"⟩, ⟨2, "0xb", "0x", "0"⟩], "", "", "0", ""⟩
        1).batchTransactions.length + 1 = 2 ∧
    AppJs.removeBatchTransaction [⟨"", "0", "0x"⟩] 5 = [⟨"", "0", "0x"⟩] :=
  ⟨(C9_remove_semantics
      ⟨[⟨1, "0xa", "0x", "0"⟩, ⟨2, "0xb", "0x", "0"⟩], "", "", "0", ""⟩ 1 [] 0).2.1
      (by decide) (by decide),
   (C9_remove_semantics ⟨[], "", "", "0", ""⟩ 0 [⟨"", "0", "0x"⟩] 5).2.2.2.1 (by decide)⟩

theorem prepareCall_empty :
    AppJs.prepareCall ⟨"", "", ""⟩ = some ⟨zeroAddress, 0, "0x"⟩ := by
  decide

/-- Claim C10 (confirmed): in the calls mapping shared verbatim by the
type-4 batch path and the sponsored path, a pending call with empty
target, value and data fields is submitted as the zero-address call with
amount 0 and calldata 0x — included in the prepared calls array rather
than rejected, the array keeping one prepared call per pending call. -/
theorem C10_empty_fields_default (l : List AppJs.BatchTx) :
    AppJs.prepareCall ⟨"", "", ""⟩ = some ⟨zeroAddress, 0, "0x"⟩ ∧
    (∀ res, AppJs.prepareCalls l = some res → res.length = l.length) ∧
    AppJs.prepareCalls (l ++ [⟨"", "", ""⟩])
      = (AppJs.prepareCalls l).map (fun cs => cs ++ [⟨zeroAddress, 0, "0x"⟩]) ∧
    AppJs.sponsoredCalls l = AppJs.prepareCalls l := by
  refine ⟨prepareCall_empty, ?_, ?_, ?_⟩
  · induction l with
    | nil =>
      intro res h
      simp only [AppJs.prepareCalls] at h
      cases h
      rfl
    | cons tx rest ih =>
      intro res h
      simp only [AppJs.prepareCalls] at h
      rcases hc : AppJs.prepareCall tx with _ | c <;> rw [hc] at h
      · simp at h
      · rcases hr : AppJs.prepareCalls rest with _ | cs <;> rw [hr] at h
        · simp at h
        · cases h
          simp [List.length_cons, ih cs hr]
  · induction l with
    | nil =>
      simp [AppJs.prepareCalls, prepareCall_empty]
    | cons tx rest ih =>
      rcases hc : AppJs.prepareCall tx with _ | c <;>
        rcases hr : AppJs.prepareCalls rest with _ | cs <;>
        simp [AppJs.prepareCalls, hc, hr, ih]
  · induction l with
    | nil => rfl
    | cons tx rest ih =>
      simp only [AppJs.sponsoredCalls, AppJs.prepareCalls, ih]

/-- Claim C10 — witness: the singleton all-empty pending call prepares to
the singleton zero-address zero-value empty-calldata call. -/
theorem C10_witness :
    ([(⟨zeroAddress, 0, "0x"⟩ : AppJs.Call)]).length
      = ([(⟨"", "", ""⟩ : AppJs.BatchTx)]).length :=
  (C10_empty_fields_default [⟨"", "", ""⟩]).2.1 [⟨zeroAddress, 0, "0x"⟩] (by decide)

end EIP7702
